import Mathlib
set_option maxRecDepth 100000
/-
Verification of opera-note-exporter (opera-note-exporter.cpp).

The program converts an Opera notes export file into Tomboy XML note
files.  Byte strings of the C++ program are modelled as lists of
characters (`Str`); every definition below is a direct shallow embedding
of the corresponding C++ function, with file-system effects made
explicit (an outcome record instead of actual writes, a `canOpen`
flag standing for the success of `std::ofstream::open`).
-/

/-- Byte strings of the C++ program, modelled as lists of characters. -/
abbrev Str := List Char

/-- The STX byte (0x02) used by the Opera format as an in-value separator. -/
def stx : Char := Char.ofNat 2

/-- The double-quote character (0x22). -/
def quoteChar : Char := Char.ofNat 34

/-- The apostrophe character (0x27). -/
def aposChar : Char := Char.ofNat 39

/-- Command-line options of the program (struct Options_t). -/
structure Options where
  default_tag : Str := []
  export_trash : Bool := false
  input : Str := []
  output : Str := []
  convert_tags_to_notebooks : Bool := false
deriving DecidableEq

/-- Per-character translation performed by the switch inside EscapeXml. -/
def escChar (c : Char) : Str :=
  if c = '&' then "&amp;".data
  else if c = quoteChar then "&quot;".data
  else if c = aposChar then "&apos;".data
  else if c = '<' then "&lt;".data
  else if c = '>' then "&gt;".data
  else [c]

/-- EscapeXml: the loop appends the translation of each character in turn. -/
def escapeXml : Str → Str
  | [] => []
  | c :: t => escChar c ++ escapeXml t

/--
Reverse mapping of the five XML entity sequences produced by escapeXml:
a single left-to-right pass that replaces each entity occurrence by the
character it stands for and copies every other character unchanged.
This is the unescaping step used by the round-trip property of the spec.
-/
def unescapeXml : Str → Str
  | [] => []
  | '&' :: 'a' :: 'm' :: 'p' :: ';' :: r => '&' :: unescapeXml r
  | '&' :: 'q' :: 'u' :: 'o' :: 't' :: ';' :: r => quoteChar :: unescapeXml r
  | '&' :: 'a' :: 'p' :: 'o' :: 's' :: ';' :: r => aposChar :: unescapeXml r
  | '&' :: 'l' :: 't' :: ';' :: r => '<' :: unescapeXml r
  | '&' :: 'g' :: 't' :: ';' :: r => '>' :: unescapeXml r
  | c :: t => c :: unescapeXml t

/-- GetLinePropertyName: if the line is empty the name is empty; one
leading tab is skipped; the name is the run of characters before the
first equals sign (from the position after the optional tab). -/
def getLinePropertyName (line : Str) : Str :=
  match line with
  | [] => []
  | c :: rest =>
    if c = '\t' then rest.takeWhile (fun x => x ≠ '=')
    else (c :: rest).takeWhile (fun x => x ≠ '=')

/-- GetLinePropertyValue: scan the whole line for the first equals sign,
step past it; if that position is at or past the end the value is empty,
otherwise the value is the rest of the line (substr to the end). -/
def getLinePropertyValue (line : Str) : Str :=
  let b := (line.takeWhile (fun x => x ≠ '=')).length + 1
  if line.length ≤ b then [] else line.drop b

/-- First token of a boost char_separator tokenizer over the STX byte:
delimiters are dropped, empty tokens are not produced, so the first
token is the first maximal nonempty run of non-STX characters (none if
the string is empty or all STX). -/
def firstToken (v : Str) : Option Str :=
  match v.dropWhile (fun c => c = stx) with
  | [] => none
  | c :: t => some ((c :: t).takeWhile (fun x => x ≠ stx))

/-- ParseFolderName dereferences tokens.begin() unconditionally; on a
value with no token that dereference is undefined behaviour in the C++
program, so the embedding keeps the Option and the parser step maps the
none case to an explicit error. -/
def parseFolderName (v : Str) : Option Str := firstToken v

/-- ParseNoteTitle: the first token if there is one, otherwise the
placeholder literal. -/
def parseNoteTitle (v : Str) : Str :=
  match firstToken v with
  | some t => t
  | none => "<no-title>".data

/-- ParseNote: boost replace_all of the two-byte sequence STX STX by a
single newline, scanning left to right without rescanning replacements,
applied to the full NAME value. -/
def parseNote : Str → Str
  | [] => []
  | c :: t =>
    if c = stx then
      match t with
      | c2 :: t2 =>
        if c2 = stx then '\n' :: parseNote t2
        else c :: c2 :: parseNote t2
      | [] => [c]
    else c :: parseNote t

/-- Value of a string of decimal digits. -/
def decDigitsVal (s : Str) : Nat :=
  s.foldl (fun a c => a * 10 + (c.toNat - 48)) 0

/-- The unsigned-magnitude part of the boost lexical_cast parser for
uint32_t: a nonempty string of decimal digits whose accumulated value
stays below 2^32, otherwise the cast throws (modelled as none). -/
def lexU32Digits (s : Str) : Option Nat :=
  if s ≠ [] ∧ s.all (fun c => '0' ≤ c ∧ c ≤ '9') then
    if decDigitsVal s < 2 ^ 32 then some (decDigitsVal s) else none
  else none

/-- boost lexical_cast to uint32_t: an optional single leading plus or
minus sign followed by the unsigned magnitude; a minus-prefixed value is
negated modulo 2^32 (stream semantics, so lexical_cast does not throw on
-1 but yields 4294967295); anything else throws (modelled as none). -/
def lexicalCastU32 (s : Str) : Option Nat :=
  match s with
  | [] => none
  | c :: t =>
    if c = '+' then lexU32Digits t
    else if c = '-' then (lexU32Digits t).map (fun v => (2 ^ 32 - v) % 2 ^ 32)
    else lexU32Digits (c :: t)

/-- A valid unsigned decimal integer representable in 32 bits, in the
words of the spec sentence behind C8: a nonempty string of decimal
digits whose value is below 2^32 (no sign). -/
def validU32Decimal (s : Str) : Prop :=
  s ≠ [] ∧ s.all (fun c => '0' ≤ c ∧ c ≤ '9') = true ∧ decDigitsVal s < 2 ^ 32

instance (s : Str) : Decidable (validU32Decimal s) := by
  unfold validU32Decimal
  infer_instance

/-- One note record; fields default like the C++ default constructor.
creation_time is kept as the Unix seconds passed to
SetCreationTimeFromUnixTime (none for the default not-a-date-time). -/
structure Note where
  title : Str := []
  note : Str := []
  tags : List Str := []
  uid : Str := []
  created : Option Nat := none
deriving DecidableEq

/-- Transient parser state of ParseFile.  The notes vector is stored
most recent first (rbegin is the head); the final in-order vector is its
reverse. -/
structure PState where
  folder : Str := []
  in_folder : Bool := false
  in_trash : Bool := false
  notes : List Note := []
deriving DecidableEq

/-- Model of the two exceptional outcomes of the parse loop: a thrown
bad_lexical_cast on CREATED, the undefined rbegin dereference on an
empty notes vector, and the undefined tokens.begin() dereference on a
folder NAME with no token. -/
inductive PError where
  | badTimestamp
  | noCurrentNote
  | noFolderToken
deriving DecidableEq

/-- Initial state of ParseFile. -/
def initState : PState := {}

/-- Mutate the most recently started note (notes_.rbegin()); the C++
dereference on an empty vector is undefined behaviour, modelled as an
explicit error. -/
def updateLast (s : PState) (f : Note → Note) : Except PError PState :=
  match s.notes with
  | [] => .error .noCurrentNote
  | n :: rest => .ok { s with notes := f n :: rest }

/-- The property-name handler chain of the parse loop body (the second
if/else-if chain, reached when the line was not skipped). -/
def stepBody (opts : Options) (s : PState) (line : Str) (prop : Str) :
    Except PError PState :=
  if prop = "#NOTE".data then
    let n0 : Note := {}
    let n1 := if opts.default_tag ≠ [] then { n0 with tags := n0.tags ++ [opts.default_tag] } else n0
    let n2 := if s.folder ≠ [] then { n1 with tags := n1.tags ++ [s.folder] } else n1
    .ok { s with in_folder := false, notes := n2 :: s.notes }
  else if s.in_folder = false ∧ prop = "UNIQUEID".data then
    updateLast s (fun n => { n with uid := getLinePropertyValue line })
  else if prop = "NAME".data then
    if s.in_folder then
      match parseFolderName (getLinePropertyValue line) with
      | some t => .ok { s with folder := t }
      | none => .error .noFolderToken
    else
      updateLast s (fun n =>
        { n with title := parseNoteTitle (getLinePropertyValue line),
                 note := parseNote (getLinePropertyValue line) })
  else if prop = "CREATED".data then
    match lexicalCastU32 (getLinePropertyValue line) with
    | some d => updateLast s (fun n => { n with created := some d })
    | none => .error .badTimestamp
  else .ok s

/-- Rest of a loop iteration after the #FOLDER / TRASH FOLDER block,
starting from the possibly trash-marked state: the trash skip, then the
handler chain. -/
def stepAfterFolder (opts : Options) (s1 : PState) (line : Str) :
    Except PError PState :=
  if s1.in_trash = true ∧ opts.export_trash = false then .ok s1
  else stepBody opts s1 line (getLinePropertyName line)

/-- One iteration of the while loop of ParseFile: the #FOLDER /
TRASH FOLDER block, the trash skip, then the handler chain. -/
def step (opts : Options) (s : PState) (line : Str) : Except PError PState :=
  if getLinePropertyName line = "#FOLDER".data then
    .ok { s with in_folder := true, in_trash := false }
  else
    stepAfterFolder opts
      (if getLinePropertyName line = "TRASH FOLDER".data ∧
          getLinePropertyValue line = "YES".data then
        { s with in_trash := true }
      else s) line

/-- The whole line loop of ParseFile over a list of input lines. -/
def parseFold (opts : Options) : PState → List Str → Except PError PState
  | s, [] => .ok s
  | s, l :: ls =>
    match step opts s l with
    | .error e => .error e
    | .ok s' => parseFold opts s' ls

/-- GetTomboyDateString formats the stored creation time as a local
calendar date; the local-time conversion depends on the environment
timezone (outside the program source), so the model renders the stored
epoch seconds in decimal, and the default-constructed time as the
not-a-date-time text boost prints.  None of the verified claims inspect
this text. -/
def tomboyDateString (n : Note) : Str :=
  match n.created with
  | none => "not-a-date-time".data
  | some t => (Nat.repr t).data

/-- One iteration of the tag loop of AsTomboyNote. -/
def renderTag (opts : Options) (tag : Str) : Str :=
  "\t\t<tag>".data ++
    (if opts.convert_tags_to_notebooks then "system:notebook:".data else []) ++
    escapeXml tag ++ "</tag>\n".data

/-- AsTomboyNote: the serialized XML document of one note. -/
def asTomboyNote (opts : Options) (n : Note) : Str :=
  let datestr := tomboyDateString n
  "<note version=\"0.3\" xmlns:link=\"http://beatniksoftware.com/tomboy/link\" xmlns:size=\"http://beatniksoftware.com/tomboy/size\" xmlns=\"http://beatniksoftware.com/tomboy\">\n".data
  ++ "\t<title>".data ++ escapeXml n.title ++ "</title>\n".data
  ++ "\t<text xml:space=\"preserve\"><note-content version=\"0.1\">".data
  ++ escapeXml n.note ++ "</note-content></text>\n".data
  ++ "\t<last-change-date>".data ++ datestr ++ "</last-change-date>\n".data
  ++ "\t<last-metadata-change-date>".data ++ datestr ++ "</last-metadata-change-date>\n".data
  ++ "\t<create-date>".data ++ datestr ++ "</create-date>\n".data
  ++ "\t<tags>\n".data
  ++ (n.tags.map (renderTag opts)).flatten
  ++ "\t</tags>\n".data
  ++ "\t<cursor-position>0</cursor-position>\n".data
  ++ "\t<width>450</width>\n".data
  ++ "\t<height>360</height>\n".data
  ++ "\t<x>0</x>\n".data
  ++ "\t<y>0</y>\n".data
  ++ "\t<open-on-startup>False</open-on-startup>\n".data
  ++ "</note>\n".data

/-- Observable effect of CreateTomboyNote on one note: messages printed
and the file written, if any. -/
structure WriteOutcome where
  errors : List Str
  infos : List Str
  file : Option (Str × Str)
deriving DecidableEq

/-- CreateTomboyNote.  canOpen stands for the success of the
std::ofstream open of the output path.  Note the C++ control flow: the
empty-uid branch prints an error but does not return, so the file is
still opened and written (named output/.note). -/
def createTomboyNote (opts : Options) (canOpen : Bool) (n : Note) : WriteOutcome :=
  if n.note = [] then
    { errors := [], infos := ["Skipping empty note".data], file := none }
  else
    let uidErrs :=
      if n.uid = [] then ["Failed to create note: Note does not have UID".data] else []
    let fname := opts.output ++ "/".data ++ n.uid ++ ".note".data
    if canOpen = false then
      { errors := uidErrs ++ ["Failed to create note: Failed to create file".data],
        infos := [], file := none }
    else
      { errors := uidErrs, infos := [],
        file := some (fname, asTomboyNote opts n ++ ['\n']) }

/-- WriteFiles: the files produced by iterating CreateTomboyNote over
the parsed notes in order. -/
def writeFiles (opts : Options) (canOpen : Bool) (notes : List Note) :
    List (Str × Str) :=
  notes.filterMap (fun n => (createTomboyNote opts canOpen n).file)

/-- Observable outcome of a whole run of main after option parsing:
whether the process exits with status zero and which files it wrote. -/
structure RunOutcome where
  exitZero : Bool
  files : List (Str × Str)
deriving DecidableEq

/-- main after option parsing: ParseFile then WriteFiles.  An exception
escaping the parse terminates the process with a nonzero status before
any file is written. -/
def runProgram (opts : Options) (canOpen : Bool) (lines : List Str) : RunOutcome :=
  match parseFold opts initState lines with
  | .error _ => { exitZero := false, files := [] }
  | .ok s => { exitZero := true, files := writeFiles opts canOpen s.notes.reverse }

/-- Suffix of a string after the first occurrence of a pattern (none if
the pattern does not occur).  Used to read elements back out of the
serialized XML documents. -/
def findAfter (pat : Str) : Str → Option Str
  | [] => if pat.isPrefixOf ([] : Str) then some [] else none
  | c :: t =>
    if pat.isPrefixOf (c :: t) then some ((c :: t).drop pat.length)
    else findAfter pat t

/-- Prefix of a string before the first occurrence of a pattern (none if
the pattern does not occur). -/
def takeBefore (pat : Str) : Str → Option Str
  | [] => if pat.isPrefixOf ([] : Str) then some [] else none
  | c :: t =>
    if pat.isPrefixOf (c :: t) then some []
    else (takeBefore pat t).map (fun r => c :: r)

/-- Text between the first occurrence of an opening marker and the next
occurrence of a closing marker. -/
def extractBetween (opening closing s : Str) : Str :=
  ((findAfter opening s).bind (takeBefore closing)).getD []

/-- Default options of a run: empty default tag, trash not exported,
notebook conversion off, output directory "out". -/
def opts2 : Options := { output := "out".data }

/-- The round-trip input of the spec, line by line. -/
def c2lines : List Str :=
  ["#FOLDER".data,
   "NAME=Recipes\x02".data,
   "#NOTE".data,
   "UNIQUEID=abc123".data,
   "NAME=Soup\x02Boil\x02\x02Serve".data,
   "CREATED=1000000000".data]

/-- Opening marker of the note body element. -/
def noteContentOpen : Str := "<note-content version=\"0.1\">".data

/-- Closing marker of the note body element. -/
def noteContentClose : Str := "</note-content>".data

/-- A note used to exhibit the missing return in CreateTomboyNote: its
body is nonempty and its uid is empty. -/
def noUidNote : Note := { note := "Body".data }

/-- The line content with one leading tab stripped if present (the
wording of the spec for lines without an equals sign). -/
def stripTab (l : Str) : Str :=
  match l with
  | [] => []
  | c :: t => if c = '\t' then t else c :: t

/-- Options of the C7 scenario: default tag "Imported", notebook
conversion enabled. -/
def opts7 : Options :=
  { default_tag := "Imported".data, output := "out".data,
    convert_tags_to_notebooks := true }

/-- A line reaches one of the three handlers that dereference the most
recently started note: UNIQUEID outside a folder header, NAME outside a
folder header, or CREATED, and is not skipped by trash filtering. -/
def reachesCursor (opts : Options) (s : PState) (l : Str) : Prop :=
  ¬(s.in_trash = true ∧ opts.export_trash = false) ∧
  ((s.in_folder = false ∧ getLinePropertyName l = "UNIQUEID".data) ∨
   (s.in_folder = false ∧ getLinePropertyName l = "NAME".data) ∨
   getLinePropertyName l = "CREATED".data)

lemma escapeXml_cons (c : Char) (t : Str) :
    escapeXml (c :: t) = escChar c ++ escapeXml t := rfl

lemma escapeXml_append (a b : Str) :
    escapeXml (a ++ b) = escapeXml a ++ escapeXml b := by
  induction a with
  | nil => rfl
  | cons c t ih => simp [escapeXml_cons, ih, List.append_assoc]

lemma unescapeXml_amp (r : Str) :
    unescapeXml ('&' :: 'a' :: 'm' :: 'p' :: ';' :: r) = '&' :: unescapeXml r := by
  simp [unescapeXml]

lemma unescapeXml_quot (r : Str) :
    unescapeXml ('&' :: 'q' :: 'u' :: 'o' :: 't' :: ';' :: r) =
      quoteChar :: unescapeXml r := by
  simp [unescapeXml]

lemma unescapeXml_apos (r : Str) :
    unescapeXml ('&' :: 'a' :: 'p' :: 'o' :: 's' :: ';' :: r) =
      aposChar :: unescapeXml r := by
  simp [unescapeXml]

lemma unescapeXml_lt (r : Str) :
    unescapeXml ('&' :: 'l' :: 't' :: ';' :: r) = '<' :: unescapeXml r := by
  simp [unescapeXml]

lemma unescapeXml_gt (r : Str) :
    unescapeXml ('&' :: 'g' :: 't' :: ';' :: r) = '>' :: unescapeXml r := by
  simp [unescapeXml]

lemma unescapeXml_plain (c : Char) (t : Str) (h : c ≠ '&') :
    unescapeXml (c :: t) = c :: unescapeXml t := by
  cases t with
  | nil => simp [unescapeXml]
  | cons c2 t2 => simp [unescapeXml, h]

lemma unescapeXml_escapeXml (s : Str) : unescapeXml (escapeXml s) = s := by
  induction s with
  | nil => simp [escapeXml, unescapeXml]
  | cons c t ih =>
    rw [escapeXml_cons]
    by_cases h1 : c = '&'
    · subst h1
      have : escChar '&' = '&' :: 'a' :: 'm' :: 'p' :: ';' :: [] := by decide
      rw [this]
      simpa [unescapeXml_amp] using ih
    · by_cases h2 : c = quoteChar
      · subst h2
        have : escChar quoteChar =
            '&' :: 'q' :: 'u' :: 'o' :: 't' :: ';' :: [] := by decide
        rw [this]
        simpa [unescapeXml_quot] using ih
      · by_cases h3 : c = aposChar
        · subst h3
          have : escChar aposChar =
              '&' :: 'a' :: 'p' :: 'o' :: 's' :: ';' :: [] := by decide
          rw [this]
          simpa [unescapeXml_apos] using ih
        · by_cases h4 : c = '<'
          · subst h4
            have : escChar '<' = '&' :: 'l' :: 't' :: ';' :: [] := by decide
            rw [this]
            simpa [unescapeXml_lt] using ih
          · by_cases h5 : c = '>'
            · subst h5
              have : escChar '>' = '&' :: 'g' :: 't' :: ';' :: [] := by decide
              rw [this]
              simpa [unescapeXml_gt] using ih
            · have : escChar c = [c] := by simp [escChar, h1, h2, h3, h4, h5]
              rw [this]
              simpa [unescapeXml_plain c _ h1] using ih

/-- C5: the XML escaper maps the five special characters to their entity
sequences, leaves every other character unchanged in place (it is the
character-wise concatenation of escChar), and a single reverse-mapping
pass over its output reconstructs the original string, for all strings. -/
theorem C5_escape_roundtrip :
    (∀ s : Str, unescapeXml (escapeXml s) = s) ∧
    escapeXml ['&'] = "&amp;".data ∧
    escapeXml [quoteChar] = "&quot;".data ∧
    escapeXml [aposChar] = "&apos;".data ∧
    escapeXml ['<'] = "&lt;".data ∧
    escapeXml ['>'] = "&gt;".data ∧
    (∀ c : Char, c ∉ (['&', quoteChar, aposChar, '<', '>'] : List Char) →
      escChar c = [c]) ∧
    (∀ s : Str, escapeXml s = (s.map escChar).flatten) := by
  refine ⟨unescapeXml_escapeXml, by decide, by decide, by decide, by decide, by decide,
    ?_, ?_⟩
  · intro c hc
    simp only [List.mem_cons, List.mem_singleton] at hc
    push_neg at hc
    obtain ⟨h1, h2, h3, h4, h5⟩ := hc
    simp [escChar, h1, h2, h3, h4, h5]
  · intro s
    induction s with
    | nil => rfl
    | cons c t ih => simp [escapeXml_cons, ih]

/-- Witness for C5 at concrete inputs. -/
theorem C5_escape_roundtrip_witness :
    unescapeXml (escapeXml "a<b&quot;".data) = "a<b&quot;".data ∧
    escChar 'x' = ['x'] :=
  ⟨C5_escape_roundtrip.1 "a<b&quot;".data,
   C5_escape_roundtrip.2.2.2.2.2.2.1 'x' (by decide)⟩

/-- C2 fails on the code: on the round-trip input the program produces
exactly one file out/abc123.note, but the note-content element, once
XML-unescaped, is the full NAME value with doubled STX turned into a
newline — "Soup\x02Boil\nServe" — not "Boil\nServe" as claimed. -/
theorem C2_counterexample :
    ((runProgram opts2 true c2lines).files.map Prod.fst = ["out/abc123.note".data]) ∧
    ((runProgram opts2 true c2lines).files.head?.map
        (fun f => unescapeXml (extractBetween noteContentOpen noteContentClose f.2)) =
      some "Soup\x02Boil\nServe".data) ∧
    ((runProgram opts2 true c2lines).files.head?.map
        (fun f => unescapeXml (extractBetween noteContentOpen noteContentClose f.2)) ≠
      some "Boil\nServe".data) := by
  refine ⟨by decide, by decide, by decide⟩

/-- C2 as amended: on the round-trip input, parsed with default options,
exactly one file out/abc123.note is produced; its note-content element,
once XML-unescaped, equals the full NAME value with each doubled STX
replaced by a newline, that is "Soup\x02Boil\nServe"; its title element
equals "Soup"; and its tag list contains "Recipes". -/
theorem C2_amended :
    (runProgram opts2 true c2lines).exitZero = true ∧
    ((runProgram opts2 true c2lines).files.map Prod.fst = ["out/abc123.note".data]) ∧
    ((runProgram opts2 true c2lines).files.head?.map
        (fun f => unescapeXml (extractBetween noteContentOpen noteContentClose f.2)) =
      some "Soup\x02Boil\nServe".data) ∧
    ((runProgram opts2 true c2lines).files.head?.map
        (fun f => extractBetween "<title>".data "</title>\n".data f.2) =
      some "Soup".data) ∧
    ((runProgram opts2 true c2lines).files.head?.map
        (fun f => (findAfter "<tag>Recipes</tag>".data f.2).isSome) = some true) := by
  refine ⟨by decide, by decide, by decide, by decide, by decide⟩

/-- C1 is contradicted by the code: for a note with nonempty body and
empty uid, CreateTomboyNote prints the UID error but, lacking a return
after it, still opens output/.note and writes the serialized note into
it, so a file is created in the output directory. -/
theorem C1_uid_error_still_writes_file :
    (createTomboyNote opts2 true noUidNote).errors =
      ["Failed to create note: Note does not have UID".data] ∧
    (createTomboyNote opts2 true noUidNote).file =
      some ("out/.note".data, asTomboyNote opts2 noUidNote ++ ['\n']) := by
  refine ⟨by decide, by decide⟩

/-- C9: a note whose body is the empty string is skipped with only the
informational message, no error and no file, whatever its uid, title,
tags, timestamp, options or file-system behaviour. -/
theorem C9_empty_body_skipped (opts : Options) (canOpen : Bool) (n : Note)
    (h : n.note = []) :
    createTomboyNote opts canOpen n =
      { errors := [], infos := ["Skipping empty note".data], file := none } := by
  simp [createTomboyNote, h]

/-- Witness for C9 at a concrete note with uid, title, tags and a
timestamp but an empty body. -/
theorem C9_empty_body_skipped_witness :
    createTomboyNote opts2 true
        { uid := "u1".data, title := "T".data, tags := ["g".data], created := some 5 } =
      { errors := [], infos := ["Skipping empty note".data], file := none } :=
  C9_empty_body_skipped opts2 true _ rfl

/-- C4 fails on the code: the value "Soup" contains no STX byte, yet the
title parsed from it is "Soup", not the placeholder, contradicting the
claim that the placeholder is used exactly when no STX byte exists. -/
theorem C4_counterexample :
    parseNoteTitle "Soup".data = "Soup".data ∧
    "Soup".data.all (fun c => c ≠ stx) = true ∧
    parseNoteTitle "Soup".data ≠ "<no-title>".data := by
  refine ⟨by decide, by decide, by decide⟩

/-- C4 as amended: the title is the first maximal nonempty run of
non-STX characters of the value when the value has any non-STX
character (when the value does not begin with STX this is exactly the
part before the first STX byte), and the placeholder literal is used
exactly when the value is empty or consists only of STX bytes. -/
theorem C4_amended (v : Str) :
    (v.all (fun c => c = stx) = true → parseNoteTitle v = "<no-title>".data) ∧
    (v.any (fun c => c ≠ stx) = true →
      parseNoteTitle v =
        (v.dropWhile (fun c => c = stx)).takeWhile (fun c => c ≠ stx)) ∧
    (∀ c t, v = c :: t → c ≠ stx →
      parseNoteTitle v = v.takeWhile (fun c => c ≠ stx)) := by
  refine ⟨?_, ?_, ?_⟩
  · intro h
    have hd : v.dropWhile (fun c => decide (c = stx)) = [] := by
      rw [List.dropWhile_eq_nil_iff]
      intro x hx
      simpa using List.all_eq_true.mp h x hx
    simp [parseNoteTitle, firstToken, hd]
  · intro h
    have hd : v.dropWhile (fun c => decide (c = stx)) ≠ [] := by
      intro hnil
      rw [List.dropWhile_eq_nil_iff] at hnil
      obtain ⟨x, hx, hxs⟩ := List.any_eq_true.mp h
      have := hnil x hx
      simp at this hxs
      exact hxs this
    obtain ⟨c, t, hct⟩ := List.exists_cons_of_ne_nil hd
    simp [parseNoteTitle, firstToken, hct]
  · intro c t hv hc
    subst hv
    have hd : (c :: t).dropWhile (fun c => decide (c = stx)) = c :: t := by
      rw [List.dropWhile_cons_of_neg]
      simpa using hc
    simp [parseNoteTitle, firstToken, hd]

/-- Witness for C4 as amended at concrete values. -/
theorem C4_amended_witness :
    parseNoteTitle "\x02\x02".data = "<no-title>".data ∧
    parseNoteTitle "\x02Soup\x02B".data = "Soup".data ∧
    parseNoteTitle "Soup\x02B".data = "Soup".data := by
  refine ⟨(C4_amended "\x02\x02".data).1 (by decide), ?_, ?_⟩
  · have h := (C4_amended "\x02Soup\x02B".data).2.1 (by decide)
    simpa using h
  · have h := (C4_amended "Soup\x02B".data).2.2 'S' "oup\x02B".data rfl (by decide)
    simpa using h

lemma getLinePropertyValue_eq_dropWhile (line : Str) :
    getLinePropertyValue line = (line.dropWhile (fun x => x ≠ '=')).drop 1 := by
  induction line with
  | nil => rfl
  | cons c t ih =>
    by_cases hc : c = '='
    · subst hc
      simp [getLinePropertyValue, List.takeWhile_cons, List.dropWhile_cons]
    · simp only [getLinePropertyValue, List.takeWhile_cons, List.dropWhile_cons] at ih ⊢
      have hcd : (decide (c ≠ '=')) = true := by simp [hc]
      simp only [hcd, eq_self_iff_true, if_true, List.length_cons]
      by_cases hlen : t.length ≤ (List.takeWhile (fun x => decide (x ≠ '=')) t).length + 1
      · rw [if_pos (by omega), ← ih, if_pos hlen]
      · rw [if_neg (by omega), List.drop_succ_cons, ← ih, if_neg hlen]

lemma getLinePropertyName_eq_takeWhile (line : Str) :
    getLinePropertyName line = (stripTab line).takeWhile (fun x => x ≠ '=') := by
  cases line with
  | nil => rfl
  | cons c t =>
    by_cases hc : c = '\t' <;> simp [getLinePropertyName, stripTab, hc]

lemma takeWhile_ne_eq_self (l : Str) (h : '=' ∉ l) :
    l.takeWhile (fun x => x ≠ '=') = l := by
  rw [List.takeWhile_eq_self_iff]
  intro x hx
  simp only [decide_eq_true_eq, ne_eq]
  intro hxe
  exact h (hxe ▸ hx)

/-- C6: a line with no equals sign classifies to an empty value and to a
name equal to the line content with one leading tab stripped; the empty
line has an empty name; and on a line with an equals sign the value is
the substring after the first equals sign. -/
theorem C6_line_classifier (line : Str) :
    ('=' ∉ line →
      getLinePropertyValue line = [] ∧ getLinePropertyName line = stripTab line) ∧
    getLinePropertyName ([] : Str) = [] ∧
    ('=' ∈ line →
      getLinePropertyValue line = (line.dropWhile (fun x => x ≠ '=')).drop 1) := by
  refine ⟨?_, rfl, fun _ => getLinePropertyValue_eq_dropWhile line⟩
  intro h
  constructor
  · rw [getLinePropertyValue_eq_dropWhile]
    have hd : line.dropWhile (fun x => x ≠ '=') = [] := by
      rw [List.dropWhile_eq_nil_iff]
      intro x hx
      simp only [decide_eq_true_eq, ne_eq]
      intro hxe
      exact h (hxe ▸ hx)
    rw [hd]
    rfl
  · rw [getLinePropertyName_eq_takeWhile]
    apply takeWhile_ne_eq_self
    intro hmem
    apply h
    cases line with
    | nil => simp [stripTab] at hmem
    | cons c t =>
      by_cases hc : c = '\t'
      · simp [stripTab, hc] at hmem
        exact List.mem_cons_of_mem c hmem
      · simpa [stripTab, hc] using hmem

theorem C6_line_classifier_witness :
    (getLinePropertyValue "\tNAME".data = [] ∧
      getLinePropertyName "\tNAME".data = stripTab "\tNAME".data) ∧
    (getLinePropertyValue "NAME=So=up".data =
      ("NAME=So=up".data.dropWhile (fun x => x ≠ '=')).drop 1) :=
  ⟨(C6_line_classifier "\tNAME".data).1 (by decide),
   (C6_line_classifier "NAME=So=up".data).2.2 (by decide)⟩

/-- C7: parsing a note under folder "Work" with default tag "Imported"
yields the tag list Imported then Work, in that order; and with the
tags-to-notebooks flag enabled every rendered tag element text is the
tag prefixed by the literal system:notebook:, equivalently the
XML-escape of the prefixed tag, since the escaper fixes the prefix. -/
theorem C7_tags_and_notebooks :
    (parseFold opts7 initState
        ["#FOLDER".data, "NAME=Work\x02".data, "#NOTE".data] =
      .ok { folder := "Work".data, in_folder := false, in_trash := false,
            notes := [{ tags := ["Imported".data, "Work".data] }] }) ∧
    (∀ (opts : Options) (tag : Str), opts.convert_tags_to_notebooks = true →
      renderTag opts tag =
        "\t\t<tag>".data ++ ("system:notebook:".data ++ escapeXml tag) ++
          "</tag>\n".data ∧
      "system:notebook:".data ++ escapeXml tag =
        escapeXml ("system:notebook:".data ++ tag)) := by
  constructor
  · rfl
  · intro opts tag h
    have hpre : escapeXml "system:notebook:".data = "system:notebook:".data := by
      decide
    constructor
    · simp [renderTag, h]
    · rw [escapeXml_append, hpre]

/-- Witness for C7 at the concrete tag "Work". -/
theorem C7_tags_and_notebooks_witness :
    renderTag opts7 "Work".data =
      "\t\t<tag>".data ++ ("system:notebook:".data ++ escapeXml "Work".data) ++
        "</tag>\n".data ∧
    "system:notebook:".data ++ escapeXml "Work".data =
      escapeXml ("system:notebook:".data ++ "Work".data) :=
  C7_tags_and_notebooks.2 opts7 "Work".data rfl

lemma step_folder (opts : Options) (s : PState) (l : Str)
    (hl : getLinePropertyName l = "#FOLDER".data) :
    step opts s l = .ok { s with in_folder := true, in_trash := false } := by
  simp [step, hl]

lemma step_in_trash (opts : Options) (s : PState) (l : Str)
    (hexp : opts.export_trash = false) (ht : s.in_trash = true)
    (hprop : getLinePropertyName l ≠ "#FOLDER".data) :
    step opts s l = .ok s := by
  obtain ⟨f, infld, intr, ns⟩ := s
  simp only at ht
  subst ht
  simp [step, stepAfterFolder, hprop, hexp]

lemma parseFold_in_trash (opts : Options) (s : PState) (ls : List Str)
    (hexp : opts.export_trash = false) (ht : s.in_trash = true)
    (hprop : ∀ l ∈ ls, getLinePropertyName l ≠ "#FOLDER".data) :
    parseFold opts s ls = .ok s := by
  induction ls with
  | nil => rfl
  | cons l ls ih =>
    rw [parseFold, step_in_trash opts s l hexp ht (hprop l (List.mem_cons_self l ls))]
    exact ih (fun x hx => hprop x (List.mem_cons_of_mem l hx))

/-- C3: with export-trash false, a #FOLDER line is processed even while
the trash flag is set and resets it (and raises the in-folder flag);
every line that is not a #FOLDER line leaves the state untouched while
the trash flag is set, so a trashed region adds no note and hence no
output file; and a note with nonempty body and nonempty uid on a
writable output yields exactly one file named output/uid.note. -/
theorem C3_trash_filtering (opts : Options) (hexp : opts.export_trash = false) :
    (∀ (s : PState) (l : Str), getLinePropertyName l = "#FOLDER".data →
      step opts s l = .ok { s with in_folder := true, in_trash := false }) ∧
    (∀ (s : PState) (ls : List Str), s.in_trash = true →
      (∀ l ∈ ls, getLinePropertyName l ≠ "#FOLDER".data) →
      parseFold opts s ls = .ok s) ∧
    (∀ n : Note, n.note ≠ [] → n.uid ≠ [] →
      ∃ content, (createTomboyNote opts true n).file =
        some (opts.output ++ "/".data ++ n.uid ++ ".note".data, content)) := by
  refine ⟨fun s l hl => step_folder opts s l hl,
    fun s ls ht hprop => parseFold_in_trash opts s ls hexp ht hprop,
    fun n h1 h2 => ⟨asTomboyNote opts n ++ ['\n'], ?_⟩⟩
  simp [createTomboyNote, h1, h2]

/-- Witness for C3 at concrete states, lines and a concrete note. -/
theorem C3_trash_filtering_witness :
    step opts2 { in_trash := true } "#FOLDER".data =
      .ok { in_folder := true, in_trash := false } ∧
    parseFold opts2 { in_trash := true }
        ["#NOTE".data, "UNIQUEID=q".data, "NAME=Hi\x02Body".data] =
      .ok { in_trash := true } ∧
    ∃ content,
      (createTomboyNote opts2 true { note := "B".data, uid := "u".data }).file =
        some ("out/u.note".data, content) :=
  ⟨(C3_trash_filtering opts2 rfl).1 { in_trash := true } "#FOLDER".data (by decide),
   (C3_trash_filtering opts2 rfl).2.1 { in_trash := true } _ rfl (by decide),
   (C3_trash_filtering opts2 rfl).2.2 { note := "B".data, uid := "u".data }
     (by decide) (by decide)⟩

lemma parseFold_append (opts : Options) (s : PState) (a b : List Str) :
    parseFold opts s (a ++ b) =
      match parseFold opts s a with
      | .error e => .error e
      | .ok s' => parseFold opts s' b := by
  induction a generalizing s with
  | nil => simp [parseFold]
  | cons l ls ih =>
    rw [List.cons_append, parseFold, parseFold]
    cases hstep : step opts s l with
    | error e => rfl
    | ok s' => exact ih s'

lemma step_created_invalid (opts : Options) (s : PState) (l : Str)
    (hl : getLinePropertyName l = "CREATED".data)
    (hskip : ¬(s.in_trash = true ∧ opts.export_trash = false))
    (hbad : lexicalCastU32 (getLinePropertyValue l) = none) :
    step opts s l = .error .badTimestamp := by
  have h1 : "CREATED".data ≠ "#FOLDER".data := by decide
  have h2 : "CREATED".data ≠ "TRASH FOLDER".data := by decide
  have h3 : "CREATED".data ≠ "#NOTE".data := by decide
  have h4 : "CREATED".data ≠ "UNIQUEID".data := by decide
  have h5 : "CREATED".data ≠ "NAME".data := by decide
  simp [step, stepAfterFolder, stepBody, hl, h1, h2, h3, h4, h5, hskip, hbad]

/-- C8 fails on the code as stated: the CREATED value -1 is not a valid
unsigned decimal integer representable in 32 bits, yet boost
lexical_cast accepts the minus sign and wraps the value modulo 2^32
instead of throwing, so the run finishes with exit status zero and even
writes the note's file, against the claimed fatal failure with zero
output files. -/
theorem C8_counterexample :
    ¬ validU32Decimal "-1".data ∧
    lexicalCastU32 "-1".data = some 4294967295 ∧
    (runProgram opts2 true
        ["#NOTE".data, "UNIQUEID=u1".data, "NAME=T\x02B".data,
         "CREATED=-1".data]).exitZero = true ∧
    (runProgram opts2 true
        ["#NOTE".data, "UNIQUEID=u1".data, "NAME=T\x02B".data,
         "CREATED=-1".data]).files.map Prod.fst = ["out/u1.note".data] := by
  refine ⟨by decide, by decide, by decide, by decide⟩

/-- C8 as amended: whenever the input decomposes as a prefix that parses
fine, then a line classified CREATED that is not skipped by trash
filtering and whose value is rejected by boost lexical_cast to uint32_t
(it is not an optionally sign-prefixed nonempty decimal digit string
accumulating below 2^32; a minus-prefixed value wraps instead of
failing), the whole run fails with a nonzero exit status and produces
zero output files (parsing happens before any writing). -/
theorem C8_invalid_created_fatal (opts : Options) (canOpen : Bool)
    (pre suf : List Str) (l : Str) (s : PState)
    (hpre : parseFold opts initState pre = .ok s)
    (hl : getLinePropertyName l = "CREATED".data)
    (hskip : ¬(s.in_trash = true ∧ opts.export_trash = false))
    (hbad : lexicalCastU32 (getLinePropertyValue l) = none) :
    runProgram opts canOpen (pre ++ l :: suf) =
      { exitZero := false, files := [] } := by
  have hstep := step_created_invalid opts s l hl hskip hbad
  have hfold : parseFold opts initState (pre ++ l :: suf) = .error .badTimestamp := by
    rw [parseFold_append, hpre]
    show parseFold opts s (l :: suf) = .error .badTimestamp
    rw [parseFold, hstep]
  simp [runProgram, hfold]

/-- Witness for C8: a note followed by a CREATED line whose value 16x is
not a number. -/
theorem C8_invalid_created_fatal_witness :
    runProgram opts2 true ["#NOTE".data, "CREATED=16x".data] =
      { exitZero := false, files := [] } :=
  C8_invalid_created_fatal opts2 true ["#NOTE".data] [] "CREATED=16x".data
    { notes := [{}] } rfl (by decide) (by decide) (by decide)

lemma updateLast_error (s : PState) (f : Note → Note) (e : PError)
    (h : updateLast s f = .error e) : s.notes = [] := by
  unfold updateLast at h
  split at h
  next heq => exact heq
  next => exact absurd h (by simp)

lemma updateLast_ok_length (s : PState) (f : Note → Note) (s' : PState)
    (h : updateLast s f = .ok s') : s'.notes.length = s.notes.length := by
  unfold updateLast at h
  split at h
  next => exact absurd h (by simp)
  next n rest heq =>
    injection h with h'
    subst h'
    simp [heq]

lemma stepBody_notes_mono (opts : Options) (s : PState) (l prop : Str) (s' : PState)
    (h : stepBody opts s l prop = .ok s') : s.notes.length ≤ s'.notes.length := by
  unfold stepBody at h
  split at h
  · injection h with h'
    subst h'
    simp
  · split at h
    · exact le_of_eq (updateLast_ok_length s _ s' h).symm
    · split at h
      · split at h
        · split at h
          · injection h with h'
            subst h'
            simp
          · exact absurd h (by simp)
        · exact le_of_eq (updateLast_ok_length s _ s' h).symm
      · split at h
        · split at h
          · exact le_of_eq (updateLast_ok_length s _ s' h).symm
          · exact absurd h (by simp)
        · injection h with h'
          subst h'
          exact le_refl _

lemma stepAfterFolder_notes_mono (opts : Options) (s1 : PState) (l : Str) (s' : PState)
    (h : stepAfterFolder opts s1 l = .ok s') : s1.notes.length ≤ s'.notes.length := by
  unfold stepAfterFolder at h
  split at h
  · injection h with h'
    subst h'
    exact le_refl _
  · exact stepBody_notes_mono opts s1 l _ s' h

lemma step_notes_mono (opts : Options) (s : PState) (l : Str) (s' : PState)
    (h : step opts s l = .ok s') : s.notes.length ≤ s'.notes.length := by
  unfold step at h
  split at h
  · injection h with h'
    subst h'
    exact le_refl _
  · have := stepAfterFolder_notes_mono opts _ l s' h
    split at this
    · simpa using this
    · exact this

lemma parseFold_notes_mono (opts : Options) (s : PState) (ls : List Str) (s' : PState)
    (h : parseFold opts s ls = .ok s') : s.notes.length ≤ s'.notes.length := by
  induction ls generalizing s with
  | nil =>
    rw [parseFold] at h
    injection h with h'
    subst h'
    exact le_refl _
  | cons l ls ih =>
    rw [parseFold] at h
    cases hstep : step opts s l with
    | error e => rw [hstep] at h; exact absurd h (by simp)
    | ok s1 =>
      rw [hstep] at h
      exact le_trans (step_notes_mono opts s l s1 hstep) (ih s1 h)

lemma parseFold_error_decomp (opts : Options) (s : PState) (ls : List Str) (e : PError)
    (h : parseFold opts s ls = .error e) :
    ∃ pre l suf s', ls = pre ++ l :: suf ∧ parseFold opts s pre = .ok s' ∧
      step opts s' l = .error e := by
  induction ls generalizing s with
  | nil => rw [parseFold] at h; exact absurd h (by simp)
  | cons l ls ih =>
    rw [parseFold] at h
    cases hstep : step opts s l with
    | error e' =>
      rw [hstep] at h
      injection h with h'
      subst h'
      exact ⟨[], l, ls, s, rfl, rfl, hstep⟩
    | ok s1 =>
      rw [hstep] at h
      obtain ⟨pre, l', suf, s', h1, h2, h3⟩ := ih s1 h
      refine ⟨l :: pre, l', suf, s', by rw [h1, List.cons_append], ?_, h3⟩
      rw [parseFold, hstep]
      exact h2

lemma stepBody_noCurrentNote (opts : Options) (s : PState) (l prop : Str)
    (h : stepBody opts s l prop = .error .noCurrentNote) :
    s.notes = [] ∧
    ((s.in_folder = false ∧ prop = "UNIQUEID".data) ∨
     (s.in_folder = false ∧ prop = "NAME".data) ∨
     prop = "CREATED".data) := by
  unfold stepBody at h
  split at h
  · exact absurd h (by simp)
  next hnote =>
    split at h
    next hu => exact ⟨updateLast_error s _ _ h, Or.inl hu⟩
    next hnu =>
      split at h
      next hname =>
        split at h
        next hinf =>
          split at h
          · exact absurd h (by simp)
          · exact absurd h (by simp)
        next hinf =>
          have hfalse : s.in_folder = false := by
            cases hf : s.in_folder
            · rfl
            · exact absurd hf hinf
          exact ⟨updateLast_error s _ _ h, Or.inr (Or.inl ⟨hfalse, hname⟩)⟩
      next hnn =>
        split at h
        next hcreated =>
          split at h
          · exact ⟨updateLast_error s _ _ h, Or.inr (Or.inr hcreated)⟩
          · exact absurd h (by simp)
        next => exact absurd h (by simp)

lemma stepAfterFolder_noCurrentNote (opts : Options) (s1 : PState) (l : Str)
    (h : stepAfterFolder opts s1 l = .error .noCurrentNote) :
    s1.notes = [] ∧ ¬(s1.in_trash = true ∧ opts.export_trash = false) ∧
    ((s1.in_folder = false ∧ getLinePropertyName l = "UNIQUEID".data) ∨
     (s1.in_folder = false ∧ getLinePropertyName l = "NAME".data) ∨
     getLinePropertyName l = "CREATED".data) := by
  unfold stepAfterFolder at h
  split at h
  · exact absurd h (by simp)
  next hskip =>
    obtain ⟨h1, h2⟩ := stepBody_noCurrentNote opts s1 l _ h
    exact ⟨h1, hskip, h2⟩

lemma step_noCurrentNote (opts : Options) (s : PState) (l : Str)
    (h : step opts s l = .error .noCurrentNote) :
    s.notes = [] ∧ reachesCursor opts s l := by
  unfold step at h
  split at h
  · exact absurd h (by simp)
  next hf =>
    split at h
    next hc =>
      obtain ⟨h1, h2, h3⟩ := stepAfterFolder_noCurrentNote opts _ l h
      rcases h3 with ⟨hn, hp⟩ | ⟨hn, hp⟩ | hp <;>
        exact absurd (hc.1.symm.trans hp) (by decide)
    next hc =>
      obtain ⟨h1, h2, h3⟩ := stepAfterFolder_noCurrentNote opts s l h
      exact ⟨h1, h2, h3⟩

lemma step_note_pushes (opts : Options) (s : PState) (l : Str) (s' : PState)
    (hl : getLinePropertyName l = "#NOTE".data)
    (hskip : ¬(s.in_trash = true ∧ opts.export_trash = false))
    (h : step opts s l = .ok s') : s'.notes ≠ [] := by
  have h1 : "#NOTE".data ≠ "#FOLDER".data := by decide
  have h2 : "#NOTE".data ≠ "TRASH FOLDER".data := by decide
  rw [step, hl, if_neg h1, if_neg (by simp [h2] :
    ¬("#NOTE".data = "TRASH FOLDER".data ∧
      getLinePropertyValue l = "YES".data))] at h
  rw [stepAfterFolder] at h
  rw [if_neg hskip] at h
  rw [stepBody, hl, if_pos rfl] at h
  injection h with h'
  subst h'
  simp

/-- C10: under the precondition that every line reaching the UNIQUEID,
non-folder NAME or CREATED handler is preceded by an already processed
#NOTE line, the parse never dereferences the last element of an empty
note sequence: the none branch of the modelled rbegin access (the
noCurrentNote error) is unreachable. -/
theorem C10_cursor_safe (opts : Options) (ls : List Str)
    (H : ∀ pre l suf s, ls = pre ++ l :: suf →
      parseFold opts initState pre = .ok s →
      reachesCursor opts s l →
      ∃ pre1 ln suf1 s1, pre = pre1 ++ ln :: suf1 ∧
        parseFold opts initState pre1 = .ok s1 ∧
        getLinePropertyName ln = "#NOTE".data ∧
        ¬(s1.in_trash = true ∧ opts.export_trash = false)) :
    parseFold opts initState ls ≠ .error .noCurrentNote := by
  intro herr
  obtain ⟨pre, l, suf, s, hls, hpre, hstep⟩ :=
    parseFold_error_decomp opts initState ls .noCurrentNote herr
  obtain ⟨hempty, hreach⟩ := step_noCurrentNote opts s l hstep
  obtain ⟨pre1, ln, suf1, s1, hpre1, hfold1, hln, hskip1⟩ :=
    H pre l suf s hls hpre hreach
  rw [hpre1, parseFold_append, hfold1] at hpre
  change parseFold opts s1 (ln :: suf1) = .ok s at hpre
  rw [parseFold] at hpre
  cases hstep1 : step opts s1 ln with
  | error e => rw [hstep1] at hpre; exact absurd hpre (by simp)
  | ok s2 =>
    rw [hstep1] at hpre
    have hne := step_note_pushes opts s1 ln s2 hln hskip1 hstep1
    have hmono := parseFold_notes_mono opts s2 suf1 s hpre
    rw [hempty] at hmono
    simp only [List.length_nil, Nat.le_zero, List.length_eq_zero] at hmono
    exact hne hmono

/-- Witness for C10 on a concrete input whose UNIQUEID line is preceded
by a #NOTE line. -/
theorem C10_cursor_safe_witness :
    parseFold opts2 initState ["#NOTE".data, "UNIQUEID=u".data] ≠
      .error .noCurrentNote := by
  apply C10_cursor_safe
  intro pre l suf s hls hpre hreach
  cases pre with
  | nil =>
    injection hls with hl1 hl2
    subst hl1
    rcases hreach with ⟨-, ⟨-, hbad⟩ | ⟨-, hbad⟩ | hbad⟩ <;> exact absurd hbad (by decide)
  | cons a pre' =>
    cases pre' with
    | nil =>
      injection hls with hl1 hl2
      subst hl1
      exact ⟨[], "#NOTE".data, [], initState, rfl, rfl, by decide, by decide⟩
    | cons b pre'' =>
      injection hls with hl1 hl2
      injection hl2 with hl3 hl4
      have : pre'' ++ l :: suf = [] := hl4.symm
      simp at this
